import Mathlib

/-!
# Verification of the Sac Transit display server core

A shallow embedding of `transit_server.py` (feed cache + query engine):
the service-calendar resolver, the next-arrivals query, the alert query,
the TTL-gated cache refresh, and the display projection.  Pandas tables
are embedded as lists of records; a `none` field value stands for a NaN
cell, and `astype(str)` of NaN is the literal string `"nan"` as in pandas.
Wall-clock inputs (today's date as `YYYYMMDD` integer, today's weekday,
seconds since local midnight) are explicit parameters.
-/

namespace SacTransit

/-- A GTFS `HH:MM:SS` time-of-day, already split into its three numeric
fields (the Python splits the string on `:`); hours may exceed 23 for
post-midnight trips. -/
structure GtfsTime where
  h : Nat
  m : Nat
  s : Nat
deriving DecidableEq

/-- Source `_gtfs_time_to_seconds`: `int(h) * 3600 + int(m) * 60 + int(s)`. -/
def gtfs_time_to_seconds (t : GtfsTime) : Nat :=
  t.h * 3600 + t.m * 60 + t.s

/-- One row of `stops.txt`. -/
structure Stop where
  stop_id : String
  stop_name : String
deriving DecidableEq

/-- One row of `stop_times.txt`; `none` is a NaN cell. -/
structure StopTime where
  trip_id : String
  stop_id : String
  arrival_time : Option GtfsTime
  departure_time : Option GtfsTime
deriving DecidableEq

/-- One row of `trips.txt`. -/
structure Trip where
  trip_id : String
  route_id : String
  service_id : String
deriving DecidableEq

/-- The `trips.txt` table.  `hasServiceId` records whether the
`service_id` column is present at all (`"service_id" in trips.columns`),
which the code tests before merging and filtering on it. -/
structure TripsTable where
  hasServiceId : Bool
  rows : List Trip
deriving DecidableEq

/-- One row of `routes.txt`; `none` short/long names are NaN cells. -/
structure Route where
  route_id : String
  route_short_name : Option String
  route_long_name : Option String
deriving DecidableEq

/-- One row of `calendar.txt` after the code's
`pd.to_numeric(..., errors="coerce").fillna(0).astype(int)` coercion of
the date columns: numeric fields are integers.  Weekday flags are the
numeric column values (active means `== 1`). -/
structure CalendarRule where
  service_id : String
  monday : Int
  tuesday : Int
  wednesday : Int
  thursday : Int
  friday : Int
  saturday : Int
  sunday : Int
  start_date : Int
  end_date : Int
deriving DecidableEq

/-- One row of `calendar_dates.txt` after numeric coercion. -/
structure CalendarException where
  service_id : String
  date : Int
  exception_type : Int
deriving DecidableEq

/-- Day of week, as selected by `_weekday_col`. -/
inductive Weekday where
  | monday | tuesday | wednesday | thursday | friday | saturday | sunday
deriving DecidableEq

/-- The weekday-column value of a calendar row (`in_range[wdcol]`). -/
def weekdayFlag (r : CalendarRule) : Weekday → Int
  | .monday => r.monday
  | .tuesday => r.tuesday
  | .wednesday => r.wednesday
  | .thursday => r.thursday
  | .friday => r.friday
  | .saturday => r.saturday
  | .sunday => r.sunday

/-- A parsed GTFS-RT alert: the `route_id` of each informed entity, and
the translation texts of the header and description `TranslatedString`s
(in feed order). -/
structure Alert where
  informed_entity : List String
  header_text : List String
  description_text : List String
deriving DecidableEq

/-- A GTFS-RT feed entity; `alert = none` models `not ent.HasField("alert")`. -/
structure FeedEntity where
  alert : Option Alert
deriving DecidableEq

/-- A GTFS-RT `FeedMessage`. -/
structure Feed where
  entity : List FeedEntity
deriving DecidableEq

/-- The process-wide `Cache` dataclass.  A `none` table means the file was
absent (or the feed never loaded).  Timestamps are seconds. -/
structure Cache where
  gtfs_loaded_at : Nat := 0
  stops : Option (List Stop) := none
  stop_times : Option (List StopTime) := none
  trips : Option TripsTable := none
  routes : Option (List Route) := none
  calendar : Option (List CalendarRule) := none
  calendar_dates : Option (List CalendarException) := none
  rt_loaded_at : Nat := 0
  trip_updates : Option Feed := none
  alerts : Option Feed := none
deriving DecidableEq

/-- Python `str.strip()`: drop whitespace from both ends (kernel-computable
over the character list). -/
def pyStrip (s : String) : String :=
  ⟨(((s.data.dropWhile Char.isWhitespace).reverse.dropWhile Char.isWhitespace).reverse)⟩

/-- Python `str.lower()` (ASCII case folding). -/
def pyLower (s : String) : String :=
  ⟨s.data.map Char.toLower⟩

/-- Python `len(s)`: the number of characters. -/
def pyLen (s : String) : Nat :=
  s.data.length

/-- Python `s[:n]` for `n ≥ 0`: the first `n` characters. -/
def pyTake (s : String) (n : Nat) : String :=
  ⟨s.data.take n⟩

/-- Python `sep.join(msgs)`. -/
def pyJoin (sep : String) (msgs : List String) : String :=
  ⟨List.intercalate sep.data (msgs.map String.data)⟩

/-- pandas `astype(str)` of a possibly-NaN cell: NaN prints as `"nan"`. -/
def pyStr : Option String → String
  | none => "nan"
  | some s => s

/-- Python `str(x or "")` where `x` is a possibly-NaN cell.  A float NaN
is truthy in Python, so a NaN cell yields the string `"nan"`; a present
string is returned as-is (with `"" or ""` giving `""`). -/
def pyStrOr (v : Option String) : String :=
  match v with
  | none => "nan"
  | some s => s

/-!
## Service calendar resolver (`active_service_ids_for_today`)
-/

/-- Step applied for each `calendar_dates.txt` row dated today:
`exception_type == 1` adds the service id, `== 2` discards it, anything
else is ignored. -/
def applyException (s : Finset String) (e : CalendarException) : Finset String :=
  if e.exception_type = 1 then insert e.service_id s
  else if e.exception_type = 2 then s.erase e.service_id
  else s

/-- Whether a calendar row is in range for today and flagged for today's
weekday (the two filters at lines 132 and 136 of the source). -/
def ruleActive (today_int : Int) (wd : Weekday) (r : CalendarRule) : Bool :=
  r.start_date ≤ today_int ∧ today_int ≤ r.end_date ∧ weekdayFlag r wd = 1

/-- Source `active_service_ids_for_today`, with today's date (as the `YYYYMMDD`
integer) and weekday passed explicitly instead of read from the clock.
`calendar.txt` rows in range and flagged for the weekday contribute their
service ids; then each `calendar_dates.txt` row dated today is applied in
row order. -/
def active_service_ids_for_today (cal : Option (List CalendarRule))
    (cald : Option (List CalendarException)) (today_int : Int) (wd : Weekday) :
    Finset String :=
  let base : Finset String :=
    match cal with
    | none => ∅
    | some rules => ((rules.filter (ruleActive today_int wd)).map (·.service_id)).toFinset
  match cald with
  | none => base
  | some excs => ((excs.filter (fun e => e.date = today_int)).foldl applyException base)

/-!
## Arrival query engine (`next_scheduled_arrivals_for_stop`)

The pipeline is split into one definition per dataframe operation of the
source, in source order: stop filter + departure fallback, time window,
merge with trips, active-service filter, merge with routes, route label,
sort, dedup/limit loop, formatting.
-/

/-- A stop-time row restricted to the columns the rest of the pipeline
reads: the trip id and the derived `dep_sec`. -/
structure CandRow where
  trip_id : String
  dep_sec : Nat
deriving DecidableEq

/-- The derived `dep` column: `departure_time.fillna(arrival_time)`. -/
def stopTimeDep (r : StopTime) : Option GtfsTime :=
  match r.departure_time with
  | some t => some t
  | none => r.arrival_time

/-- Lines 182-188: keep rows for the stop, derive `dep`, drop rows where
both times are NaN, and map to seconds. -/
def candidateRows (st : List StopTime) (stop_id : String) : List CandRow :=
  (st.filter (fun r => r.stop_id = stop_id)).filterMap
    (fun r => (stopTimeDep r).map (fun t => ⟨r.trip_id, gtfs_time_to_seconds t⟩))

/-- Membership in the four-hour window `[now_sec, now_sec + 4h]`. -/
def inWindow (now_sec : Nat) (r : CandRow) : Bool :=
  now_sec ≤ r.dep_sec ∧ r.dep_sec ≤ now_sec + 4 * 3600

/-- The fallback condition `dep_sec >= now_sec`. -/
def notPast (now_sec : Nat) (r : CandRow) : Bool :=
  now_sec ≤ r.dep_sec

/-- Lines 190-195: keep rows with `dep_sec` in `[now_sec, now_sec + 4h]`;
if none, fall back to all rows with `dep_sec >= now_sec`. -/
def windowRows (now_sec : Nat) (rows : List CandRow) : List CandRow :=
  let upcoming := rows.filter (inWindow now_sec)
  if upcoming.isEmpty then rows.filter (notPast now_sec) else upcoming

/-- A row after the left-merge with `trips`; `none` fields are NaN values
produced by an unmatched left join (or an absent `service_id` column). -/
structure MergedRow where
  dep_sec : Nat
  route_id : Option String
  service_id : Option String
deriving DecidableEq

/-- Line 203: `upcoming.merge(trips[needed_cols], on="trip_id", how="left")`.
Each row pairs with every matching trip row; a row with no match survives
with NaN trip columns.  The `service_id` column is carried only when the
trips table has one. -/
def mergeTrips (trips : TripsTable) (rows : List CandRow) : List MergedRow :=
  rows.flatMap (fun r =>
    let ms := trips.rows.filter (fun t => t.trip_id = r.trip_id)
    if ms.isEmpty then [⟨r.dep_sec, none, none⟩]
    else ms.map (fun t =>
      ⟨r.dep_sec, some t.route_id,
        if trips.hasServiceId then some t.service_id else none⟩))

/-- Lines 205-208: the row predicate of the active-service filter,
`upcoming["service_id"].astype(str).isin(active_sids)`. -/
def isActiveRow (active : Finset String) (r : MergedRow) : Bool :=
  pyStr r.service_id ∈ active

/-- Lines 205-208 (continued): the conditional filter itself. -/
def serviceFilter (active : Finset String) (hasCol : Bool) (rows : List MergedRow) :
    List MergedRow :=
  if active ≠ ∅ ∧ hasCol then
    let filtered := rows.filter (isActiveRow active)
    if filtered.isEmpty then rows else filtered
  else rows

/-- A row after the left-merge with `routes`. -/
structure RoutedRow where
  dep_sec : Nat
  route_id : Option String
  route_short_name : Option String
  route_long_name : Option String
deriving DecidableEq

/-- Lines 210-214: left-merge with `routes` on `route_id`.  A NaN
`route_id` (from an unmatched trip merge) joins with nothing. -/
def mergeRoutes (routes : List Route) (rows : List MergedRow) : List RoutedRow :=
  rows.flatMap (fun r =>
    match r.route_id with
    | none => [⟨r.dep_sec, none, none, none⟩]
    | some rid =>
      let ms := routes.filter (fun rt => rt.route_id = rid)
      if ms.isEmpty then [⟨r.dep_sec, some rid, none, none⟩]
      else ms.map (fun rt => ⟨r.dep_sec, some rid, rt.route_short_name, rt.route_long_name⟩))

/-- Lines 216-221 (`route_name`): stripped short name if non-empty, else
stripped long name, else `str(route_id or "route?")`.  Each `str(x or "")`
turns a NaN cell into the literal `"nan"` (NaN is truthy). -/
def route_name (r : RoutedRow) : String :=
  let sn := pyStrip (pyStrOr r.route_short_name)
  if sn ≠ "" then sn
  else
    let ln := pyStrip (pyStrOr r.route_long_name)
    if ln ≠ "" then ln
    else
      match r.route_id with
      | none => "nan"
      | some rid => if rid = "" then "route?" else rid

/-- A row carrying the resolved `route` label (line 223). -/
structure LabeledRow where
  dep_sec : Nat
  route : String
deriving DecidableEq

/-- Line 223: derive the `route` column. -/
def labelRows (rows : List RoutedRow) : List LabeledRow :=
  rows.map (fun r => ⟨r.dep_sec, route_name r⟩)

/-- The sort key of `sort_values("dep_sec")`: compare rows by `dep_sec`. -/
def depLe (a b : LabeledRow) : Prop := a.dep_sec ≤ b.dep_sec

instance : DecidableRel depLe := fun a b => Nat.decLe a.dep_sec b.dep_sec

instance : IsTotal LabeledRow depLe := ⟨fun a b => Nat.le_total a.dep_sec b.dep_sec⟩

instance : IsTrans LabeledRow depLe := ⟨fun _ _ _ => Nat.le_trans⟩

/-- Line 224: `upcoming.sort_values("dep_sec")` — a stable sort by `dep_sec`. -/
def sortRows (rows : List LabeledRow) : List LabeledRow :=
  rows.insertionSort depLe

/-- Lines 226-235: walk the sorted rows, skip any `dep_sec` already seen,
append the row, and break once `len(rows) >= limit` (checked after the
append, so one row is still taken when `limit = 0`).  `seen` and `count`
mirror the loop's `seen_dep` set and `len(rows)`. -/
def dedupLimitAux (limit : Nat) : List LabeledRow → List Nat → Nat → List LabeledRow
  | [], _, _ => []
  | r :: rest, seen, count =>
    if r.dep_sec ∈ seen then dedupLimitAux limit rest seen count
    else if limit ≤ count + 1 then [r]
    else r :: dedupLimitAux limit rest (r.dep_sec :: seen) (count + 1)

/-- The dedup/limit loop started with empty state. -/
def dedupLimit (limit : Nat) (rows : List LabeledRow) : List LabeledRow :=
  dedupLimitAux limit rows [] 0

/-- Line 239: `mins = max(0, int((dep_sec - now_sec) // 60))` (Python `//`
is floor division). -/
def rowMinutes (now_sec : Nat) (r : LabeledRow) : Int :=
  max 0 (((r.dep_sec : Int) - (now_sec : Int)).fdiv 60)

/-- Line 240: `f"{r['route']} {mins}"`. -/
def formatRow (now_sec : Nat) (r : LabeledRow) : String :=
  r.route ++ " " ++ toString (rowMinutes now_sec r)

/-- Source `next_scheduled_arrivals_for_stop`, with the clock inputs explicit.
Returns `[]` when any of `stop_times`, `trips`, `routes` is absent
(line 173); otherwise runs the pipeline above. -/
def next_scheduled_arrivals_for_stop (c : Cache) (today_int : Int) (wd : Weekday)
    (now_sec : Nat) (stop_id : String) (limit : Nat) : List String :=
  match c.stop_times, c.trips, c.routes with
  | some st, some trips, some routes =>
    let active := active_service_ids_for_today c.calendar c.calendar_dates today_int wd
    let cand := candidateRows st stop_id
    let upcoming := windowRows now_sec cand
    let merged := mergeTrips trips upcoming
    let filtered := serviceFilter active trips.hasServiceId merged
    let routed := mergeRoutes routes filtered
    let chosen := dedupLimit limit (sortRows (labelRows routed))
    chosen.map (formatRow now_sec)
  | _, _, _ => []

/-!
## Alert query engine (`get_alert_text` and helpers)
-/

/-- Match of a routes row against the normalized filter by short name
(both sides stripped and lowercased). -/
def snMatches (sn : String) (r : Route) : Bool :=
  pyLower (pyStrip (pyStr r.route_short_name)) = sn

/-- Fallback match of a routes row against the normalized filter by
route id (`routes["route_id"].str.lower() == sn`). -/
def ridMatches (sn : String) (r : Route) : Bool :=
  pyLower r.route_id = sn

/-- Source `_route_ids_for_short_name` (with the routes table passed explicitly).
Returns `none` for "no filter": falsy filter string, absent or empty
routes table, or a filter that strips to empty.  Otherwise matches the
trimmed lowercased filter against trimmed lowercased short names, falls
back to a lowercase match on `route_id`, and returns the (possibly empty)
set of matched route ids. -/
def route_ids_for_short_name (routes : Option (List Route))
    (short_name : Option String) : Option (Finset String) :=
  match short_name with
  | none => none
  | some s0 =>
    if s0 = "" then none
    else
      match routes with
      | none => none
      | some rts =>
        if rts.isEmpty then none
        else
          let sn := pyLower (pyStrip s0)
          if sn = "" then none
          else
            let bySn := rts.filter (snMatches sn)
            let matched := if bySn.isEmpty then rts.filter (ridMatches sn) else bySn
            some (matched.map (·.route_id)).toFinset

/-- Source `_alert_applies_to_routes`: with no filter every alert applies; with a
filter, some informed entity must carry a non-empty (after strip) route id
in the allowed set. -/
def alert_applies_to_routes (a : Alert) (allowed : Option (Finset String)) : Bool :=
  match allowed with
  | none => true
  | some s => a.informed_entity.any (fun e =>
      let rid := pyStrip e
      rid ≠ "" ∧ rid ∈ s)

/-- Lines 292-296: the extracted display text of one alert.  The branch on
the header is taken whenever the header's translation list is non-empty
(protobuf sub-messages are always truthy), and the FIRST translation is
stripped; only when the header has no translation is the description's
first translation used. -/
def extract_alert_text (a : Alert) : String :=
  match a.header_text with
  | t :: _ => pyStrip t
  | [] =>
    match a.description_text with
    | t :: _ => pyStrip t
    | [] => ""

/-- Lines 285-298: the surviving alert texts, in feed order. -/
def alert_msgs (feed : Feed) (allowed : Option (Finset String)) : List String :=
  feed.entity.filterMap (fun ent =>
    match ent.alert with
    | none => none
    | some a =>
      if alert_applies_to_routes a allowed then
        let txt := extract_alert_text a
        if txt = "" then none else some txt
      else none)

/-- Source `get_alert_text`: `"No alerts"` without a loaded alert snapshot or
without surviving texts; otherwise the texts joined with `" | "`,
truncated to `max_len` characters with an ellipsis appended when the
joined string was longer. -/
def get_alert_text (c : Cache) (route_filter : Option String) (max_len : Nat) : String :=
  match c.alerts with
  | none => "No alerts"
  | some feed =>
    let allowed := route_ids_for_short_name c.routes route_filter
    let msgs := alert_msgs feed allowed
    if msgs.isEmpty then "No alerts"
    else
      let out := pyJoin " | " msgs
      pyTake out max_len ++ (if max_len < pyLen out then "…" else "")

/-!
## Cache refresh (`ensure_gtfs_loaded`, `ensure_rt_loaded`)

Fetching and parsing are embedded as explicit outcomes; cache mutation is
threaded as state, one update per assignment statement of the source, so
that the cache a failure leaves behind is exactly the one the Python
exception would.  An error value `()` stands for a raised exception.
-/

/-- Refresh TTLs from the source. -/
def GTFS_REFRESH_SECONDS : Nat := 24 * 3600

/-- Realtime refresh TTL from the source. -/
def RT_REFRESH_SECONDS : Nat := 15

/-- Outcome of looking one member up in the fetched zip and parsing it:
the member is missing (`read_csv` catches `KeyError` and yields `None`),
or present but malformed (`pd.read_csv` raises), or parses to a table. -/
inductive CsvOutcome (α : Type) where
  | missing
  | malformed
  | table (t : α)
deriving DecidableEq

/-- The six members of the fetched static bundle. -/
structure ZipContent where
  stops : CsvOutcome (List Stop)
  stop_times : CsvOutcome (List StopTime)
  trips : CsvOutcome TripsTable
  routes : CsvOutcome (List Route)
  calendar : CsvOutcome (List CalendarRule)
  calendar_dates : CsvOutcome (List CalendarException)
deriving DecidableEq

/-- The inner `read_csv`: a missing member becomes an absent table, a
malformed member propagates the parse exception. -/
def read_csv {α : Type} : CsvOutcome α → Except Unit (Option α)
  | .missing => .ok none
  | .malformed => .error ()
  | .table t => .ok (some t)

/-- Source `ensure_gtfs_loaded` at time `now`, where `fetched` is the combined
outcome of `fetch_bytes` + `zipfile.ZipFile` (both happen before any cache
assignment).  Returns the cache state after the call together with the
propagated exception, if any.  Each table is assigned to the cache as soon
as its own `read_csv` returns, exactly as in the source, so a parse
failure leaves the assignments already made in place. -/
def ensure_gtfs_loaded (now : Nat) (fetched : Except Unit ZipContent) (c : Cache) :
    Cache × Option Unit :=
  if c.stops.isSome ∧ now - c.gtfs_loaded_at < GTFS_REFRESH_SECONDS then (c, none)
  else
    match fetched with
    | .error e => (c, some e)
    | .ok z =>
      match read_csv z.stops with
      | .error e => (c, some e)
      | .ok stops =>
        let c := { c with stops := stops }
        match read_csv z.stop_times with
        | .error e => (c, some e)
        | .ok stop_times =>
          let c := { c with stop_times := stop_times }
          match read_csv z.trips with
          | .error e => (c, some e)
          | .ok trips =>
            let c := { c with trips := trips }
            match read_csv z.routes with
            | .error e => (c, some e)
            | .ok routes =>
              let c := { c with routes := routes }
              match read_csv z.calendar with
              | .error e => (c, some e)
              | .ok calendar =>
                let c := { c with calendar := calendar }
                match read_csv z.calendar_dates with
                | .error e => (c, some e)
                | .ok calendar_dates =>
                  let c := { c with calendar_dates := calendar_dates }
                  ({ c with gtfs_loaded_at := now }, none)

/-- Raw feed bytes. -/
def Bytes : Type := List Nat

/-- Source `ensure_rt_loaded` at time `now`: fetch the trip-updates bytes, fetch
the alerts bytes, parse the first, parse the second — all before any cache
assignment — then assign both snapshots and the timestamp. -/
def ensure_rt_loaded (now : Nat) (fetch_trips fetch_alerts : Except Unit Bytes)
    (parse : Bytes → Except Unit Feed) (c : Cache) : Cache × Option Unit :=
  if c.alerts.isSome ∧ now - c.rt_loaded_at < RT_REFRESH_SECONDS then (c, none)
  else
    match fetch_trips with
    | .error e => (c, some e)
    | .ok trips_bin =>
      match fetch_alerts with
      | .error e => (c, some e)
      | .ok alerts_bin =>
        match parse trips_bin with
        | .error e => (c, some e)
        | .ok tu =>
          match parse alerts_bin with
          | .error e => (c, some e)
          | .ok al =>
            ({ c with trip_updates := some tu, alerts := some al, rt_loaded_at := now },
              none)

/-!
## Display projection (`/api/display`)
-/

/-- The JSON-shaped response of the display endpoint. -/
structure DisplayResponse where
  title : String
  lines : List String
  ticker : String
deriving DecidableEq

/-- The `while len(arrivals) < 3: arrivals.append("--")` padding loop. -/
def padArrivals (arrivals : List String) : List String :=
  arrivals ++ List.replicate (3 - arrivals.length) "--"

/-- The `display` handler body after the two `ensure_*` refreshes, on the
resulting cache: arrivals for the stop with `limit=3`, padded with `"--"`,
then the response `{title, lines: [title, a0, a1, a2], ticker}`. -/
def display (c : Cache) (today_int : Int) (wd : Weekday) (now_sec : Nat)
    (stop_id : String) (title : String) (route : Option String) : DisplayResponse :=
  let arrivals := padArrivals
    (next_scheduled_arrivals_for_stop c today_int wd now_sec stop_id 3)
  { title := title
    lines := [title, arrivals.getD 0 "--", arrivals.getD 1 "--", arrivals.getD 2 "--"]
    ticker := get_alert_text c route 160 }

/-!
## Helper lemmas
-/

/-- Length of a string concatenation, at the character level. -/
theorem pyLen_append (a b : String) : pyLen (a ++ b) = pyLen a + pyLen b := by
  cases a with
  | mk la =>
    cases b with
    | mk lb => simp [pyLen, String.append]

/-- Taking at most the whole string returns the string unchanged. -/
theorem pyTake_of_le (s : String) (n : Nat) (h : pyLen s ≤ n) : pyTake s n = s := by
  cases s with
  | mk l =>
    simp only [pyTake]
    exact congrArg String.mk (List.take_of_length_le h)

/-- Length of `pyTake` when the string is longer than the cut. -/
theorem pyLen_pyTake_of_lt (s : String) (n : Nat) (h : n < pyLen s) :
    pyLen (pyTake s n) = n := by
  cases s with
  | mk l =>
    simp only [pyLen] at h
    simp [pyTake, pyLen]
    omega

/-- A row in the four-hour window is in particular not in the past. -/
theorem notPast_of_inWindow (now_sec : Nat) (r : CandRow)
    (h : inWindow now_sec r = true) : notPast now_sec r = true := by
  simp only [inWindow, decide_eq_true_eq] at h
  simp [notPast, h.1]

/-!
## C3: the time-window rule
-/

/-- C3: the arrival query keeps exactly the rows whose `dep_sec` lies in
`[now_sec, now_sec + 4h]`; if that set is empty it falls back to all rows
with `dep_sec ≥ now_sec` (no upper bound); if that is also empty the
result is empty; and a `dep_sec` numerically before `now_sec` is never
included (excluded, not clamped). -/
theorem window_filter_spec (now_sec : Nat) (rows : List CandRow) :
    (rows.filter (inWindow now_sec) ≠ [] →
      windowRows now_sec rows = rows.filter (inWindow now_sec)) ∧
    (rows.filter (inWindow now_sec) = [] →
      windowRows now_sec rows = rows.filter (notPast now_sec)) ∧
    (rows.filter (notPast now_sec) = [] → windowRows now_sec rows = []) ∧
    (∀ r ∈ windowRows now_sec rows, now_sec ≤ r.dep_sec ∧ r ∈ rows) ∧
    (∀ r ∈ rows, r.dep_sec < now_sec → r ∉ windowRows now_sec rows) := by
  have hsub : rows.filter (notPast now_sec) = [] → rows.filter (inWindow now_sec) = [] := by
    intro h
    rw [List.eq_nil_iff_forall_not_mem] at h ⊢
    intro r hr
    rw [List.mem_filter] at hr
    exact h r (List.mem_filter.mpr ⟨hr.1, notPast_of_inWindow now_sec r hr.2⟩)
  refine ⟨?_, ?_, ?_, ?_, ?_⟩
  · intro h
    simp [windowRows, List.isEmpty_iff, h]
  · intro h
    simp [windowRows, List.isEmpty_iff, h]
  · intro h
    simp [windowRows, List.isEmpty_iff, hsub h, h]
  · intro r hr
    simp only [windowRows, List.isEmpty_iff] at hr
    by_cases h : rows.filter (inWindow now_sec) = []
    · rw [if_pos h] at hr
      rw [List.mem_filter] at hr
      have := hr.2
      simp only [notPast, decide_eq_true_eq] at this
      exact ⟨this, hr.1⟩
    · rw [if_neg h] at hr
      rw [List.mem_filter] at hr
      have := notPast_of_inWindow now_sec r hr.2
      simp only [notPast, decide_eq_true_eq] at this
      exact ⟨this, hr.1⟩
  · intro r _ hlt hmem
    simp only [windowRows, List.isEmpty_iff] at hmem
    by_cases h : rows.filter (inWindow now_sec) = []
    · rw [if_pos h, List.mem_filter] at hmem
      have := hmem.2
      simp only [notPast, decide_eq_true_eq] at this
      omega
    · rw [if_neg h, List.mem_filter] at hmem
      have := notPast_of_inWindow now_sec r hmem.2
      simp only [notPast, decide_eq_true_eq] at this
      omega

/-- Witness for C3 at a concrete input: one past and one upcoming row. -/
theorem window_filter_spec_witness :
    ([⟨"a", 10⟩, ⟨"b", 10000⟩] : List CandRow).filter (inWindow 100) ≠ [] ∧
    windowRows 100 [⟨"a", 10⟩, ⟨"b", 10000⟩] =
      ([⟨"a", 10⟩, ⟨"b", 10000⟩] : List CandRow).filter (inWindow 100) :=
  ⟨by decide, (window_filter_spec 100 [⟨"a", 10⟩, ⟨"b", 10000⟩]).1 (by decide)⟩

/-!
## C5: the active-service filter is skipped rather than emptying the result
-/

/-- C5: the active-service filter is applied only when the active set is
non-empty and filtering would not eliminate every candidate row; when the
active set is empty, or filtering would eliminate every row, the
unfiltered row set is kept. -/
theorem service_filter_skip_spec (active : Finset String) (hasCol : Bool)
    (rows : List MergedRow) :
    (serviceFilter active hasCol rows = rows ∨
      serviceFilter active hasCol rows = rows.filter (isActiveRow active)) ∧
    (serviceFilter active hasCol rows ≠ rows →
      active ≠ ∅ ∧ rows.filter (isActiveRow active) ≠ []) ∧
    (active = ∅ → serviceFilter active hasCol rows = rows) ∧
    (rows.filter (isActiveRow active) = [] → serviceFilter active hasCol rows = rows) ∧
    (active ≠ ∅ → hasCol = true → rows.filter (isActiveRow active) ≠ [] →
      serviceFilter active hasCol rows = rows.filter (isActiveRow active)) := by
  by_cases hgate : active ≠ ∅ ∧ hasCol = true
  · by_cases hf : rows.filter (isActiveRow active) = []
    · have he : serviceFilter active hasCol rows = rows := by
        simp [serviceFilter, hgate.1, hgate.2, List.isEmpty_iff, hf]
      refine ⟨Or.inl he, fun hne => absurd he hne, fun _ => he, fun _ => he, ?_⟩
      intro _ _ hne
      exact absurd hf hne
    · have he : serviceFilter active hasCol rows = rows.filter (isActiveRow active) := by
        simp [serviceFilter, hgate.1, hgate.2, List.isEmpty_iff, hf]
      refine ⟨Or.inr he, fun _ => ⟨hgate.1, hf⟩, fun hz => absurd hz hgate.1,
        fun hz => absurd hz hf, fun _ _ _ => he⟩
  · have he : serviceFilter active hasCol rows = rows := by
      rw [serviceFilter, if_neg]
      intro ⟨h1, h2⟩
      exact hgate ⟨h1, h2⟩
    refine ⟨Or.inl he, fun hne => absurd he hne, fun _ => he, fun _ => he, ?_⟩
    intro h1 h2 _
    exact absurd ⟨h1, h2⟩ hgate

/-- Witness for C5 at a concrete input: a two-row frame where exactly one
row's service is active, with the filter applied. -/
theorem service_filter_skip_spec_witness :
    ({"A"} : Finset String) ≠ ∅ ∧
    serviceFilter {"A"} true [⟨600, some "R", some "A"⟩, ⟨700, some "R", some "B"⟩] =
      ([⟨600, some "R", some "A"⟩, ⟨700, some "R", some "B"⟩] : List MergedRow).filter
        (isActiveRow {"A"}) :=
  ⟨by decide,
    (service_filter_skip_spec {"A"} true
      [⟨600, some "R", some "A"⟩, ⟨700, some "R", some "B"⟩]).2.2.2.2
      (by decide) rfl (by decide)⟩

/-!
## C9: alert text fallback and truncation
-/

/-- C9: `get_alert_text` returns the literal `"No alerts"` when no
realtime alert snapshot is loaded or when no kept alert yields text;
otherwise it joins the surviving texts with `" | "` and, if the joined
string is longer than `max_len`, returns exactly the first `max_len`
characters followed by a single ellipsis character (total length
`max_len + 1`), while a joined string at or under `max_len` is returned
unchanged. -/
theorem alert_text_spec (c : Cache) (rf : Option String) (max_len : Nat) :
    (c.alerts = none → get_alert_text c rf max_len = "No alerts") ∧
    (∀ feed, c.alerts = some feed →
      (alert_msgs feed (route_ids_for_short_name c.routes rf) = [] →
        get_alert_text c rf max_len = "No alerts") ∧
      (alert_msgs feed (route_ids_for_short_name c.routes rf) ≠ [] →
        (pyLen (pyJoin " | " (alert_msgs feed (route_ids_for_short_name c.routes rf)))
            ≤ max_len →
          get_alert_text c rf max_len =
            pyJoin " | " (alert_msgs feed (route_ids_for_short_name c.routes rf))) ∧
        (max_len <
            pyLen (pyJoin " | " (alert_msgs feed (route_ids_for_short_name c.routes rf))) →
          get_alert_text c rf max_len =
            pyTake (pyJoin " | " (alert_msgs feed (route_ids_for_short_name c.routes rf)))
              max_len ++ "…" ∧
          pyLen (get_alert_text c rf max_len) = max_len + 1))) := by
  constructor
  · intro h
    simp [get_alert_text, h]
  · intro feed hfeed
    constructor
    · intro h
      simp [get_alert_text, hfeed, h]
    · intro hne
      constructor
      · intro hle
        have hnotlt : ¬ max_len <
            pyLen (pyJoin " | " (alert_msgs feed (route_ids_for_short_name c.routes rf))) := by
          omega
        simp only [get_alert_text, hfeed, List.isEmpty_iff, if_neg hne, hnotlt, if_false]
        rw [pyTake_of_le _ _ hle]
        cases h : pyJoin " | " (alert_msgs feed (route_ids_for_short_name c.routes rf)) with
        | mk l => simp [String.append]
      · intro hlt
        have h1 : get_alert_text c rf max_len =
            pyTake (pyJoin " | " (alert_msgs feed (route_ids_for_short_name c.routes rf)))
              max_len ++ "…" := by
          simp only [get_alert_text, hfeed, List.isEmpty_iff, if_neg hne, hlt, if_true]
        refine ⟨h1, ?_⟩
        rw [h1, pyLen_append, pyLen_pyTake_of_lt _ _ hlt]
        rfl

/-- Witness for C9 at a concrete input: one alert whose joined text is
longer than the budget of 5 characters. -/
theorem alert_text_spec_witness :
    alert_msgs ⟨[⟨some ⟨["10"], ["Delay on Gold line"], []⟩⟩]⟩
        (route_ids_for_short_name none none) ≠ [] ∧
    get_alert_text { alerts := some ⟨[⟨some ⟨["10"], ["Delay on Gold line"], []⟩⟩]⟩ }
        none 5 = "Delay…" ∧
    pyLen (get_alert_text { alerts := some ⟨[⟨some ⟨["10"], ["Delay on Gold line"], []⟩⟩]⟩ }
        none 5) = 6 := by
  have h := ((alert_text_spec
    { alerts := some ⟨[⟨some ⟨["10"], ["Delay on Gold line"], []⟩⟩]⟩ } none 5).2
    ⟨[⟨some ⟨["10"], ["Delay on Gold line"], []⟩⟩]⟩ rfl).2 (by decide) |>.2 (by decide)
  exact ⟨by decide, by rw [h.1]; decide, h.2⟩

/-!
## C10: absent tables degrade without raising
-/

/-- C10: if any one of `stop_times`, `trips`, `routes` is absent the
arrival query returns the empty sequence, whereas absence of `calendar`
and `calendar_dates` only yields an empty active-service set, and an
empty active-service set makes the service filter the identity. -/
theorem missing_tables_spec (c : Cache) (t : Int) (wd : Weekday) (now : Nat)
    (sid : String) (lim : Nat) :
    ((c.stop_times = none ∨ c.trips = none ∨ c.routes = none) →
      next_scheduled_arrivals_for_stop c t wd now sid lim = []) ∧
    (active_service_ids_for_today none none t wd = ∅) ∧
    (c.calendar = none → c.calendar_dates = none →
      active_service_ids_for_today c.calendar c.calendar_dates t wd = ∅) ∧
    (∀ hasCol rows, serviceFilter ∅ hasCol rows = rows) := by
  have hsf : ∀ (hasCol : Bool) (rows : List MergedRow), serviceFilter ∅ hasCol rows = rows := by
    intro hasCol rows
    rw [serviceFilter, if_neg]
    intro ⟨h1, _⟩
    exact h1 rfl
  refine ⟨?_, rfl, ?_, hsf⟩
  · intro h
    rcases h with h | h | h
    · cases hst : c.stop_times with
      | none => simp [next_scheduled_arrivals_for_stop, hst]
      | some v => rw [hst] at h; cases h
    · cases hst : c.stop_times with
      | none => simp [next_scheduled_arrivals_for_stop, hst]
      | some v =>
        cases htr : c.trips with
        | none => simp [next_scheduled_arrivals_for_stop, hst, htr]
        | some w => rw [htr] at h; cases h
    · cases hst : c.stop_times with
      | none => simp [next_scheduled_arrivals_for_stop, hst]
      | some v =>
        cases htr : c.trips with
        | none => simp [next_scheduled_arrivals_for_stop, hst, htr]
        | some w =>
          cases hro : c.routes with
          | none => simp [next_scheduled_arrivals_for_stop, hst, htr, hro]
          | some u => rw [hro] at h; cases h
  · intro h1 h2
    rw [h1, h2]
    exact rfl

/-- Witness for C10 at a concrete input: a cache whose `stop_times` table
is absent but whose other tables are loaded. -/
theorem missing_tables_spec_witness :
    (({ stop_times := none, trips := some ⟨true, []⟩, routes := some [] } : Cache).stop_times
        = none ∨
      ({ stop_times := none, trips := some ⟨true, []⟩, routes := some [] } : Cache).trips
        = none ∨
      ({ stop_times := none, trips := some ⟨true, []⟩, routes := some [] } : Cache).routes
        = none) ∧
    next_scheduled_arrivals_for_stop
      { stop_times := none, trips := some ⟨true, []⟩, routes := some [] } 1 .monday 0 "S" 3
      = [] :=
  ⟨Or.inl rfl,
    (missing_tables_spec { stop_times := none, trips := some ⟨true, []⟩, routes := some [] }
      1 .monday 0 "S" 3).1 (Or.inl rfl)⟩

/-!
## C4: calendar rules plus exception overrides
-/

/-- An exception row that affects membership of `sid` (right service and a
recognized type). -/
def overridingExc (sid : String) (e : CalendarException) : Bool :=
  e.service_id = sid ∧ (e.exception_type = 1 ∨ e.exception_type = 2)

/-- Membership after folding the exception rows over a base set: the last
exception row for that service with a recognized type decides; with none,
the base set decides. -/
theorem mem_foldl_applyException (sid : String) (l : List CalendarException)
    (base : Finset String) :
    (sid ∈ l.foldl applyException base ↔
      match (l.filter (overridingExc sid)).getLast? with
      | some e => e.exception_type = 1
      | none => sid ∈ base) := by
  induction l generalizing base with
  | nil => simp
  | cons e l ih =>
    rw [List.foldl_cons, ih (applyException base e)]
    by_cases hp : overridingExc sid e = true
    · have hsid : e.service_id = sid ∧ (e.exception_type = 1 ∨ e.exception_type = 2) := by
        simpa [overridingExc, decide_eq_true_eq] using hp
      rw [List.filter_cons_of_pos hp]
      cases hl : l.filter (overridingExc sid) with
      | nil =>
        have : sid ∈ applyException base e ↔ e.exception_type = 1 := by
          rcases hsid.2 with h1 | h2
          · simp [applyException, h1, hsid.1, Finset.mem_insert]
          · have hne : e.exception_type ≠ 1 := by omega
            simp [applyException, hne, h2, hsid.1, Finset.not_mem_erase]
        rw [this]
        exact Iff.rfl
      | cons x xs =>
        rw [List.getLast?_cons_cons]
        have hne : (x :: xs) ≠ ([] : List CalendarException) := by simp
        obtain ⟨y, hy⟩ := Option.isSome_iff_exists.mp (List.getLast?_isSome.mpr hne)
        rw [hy]
    · rw [List.filter_cons_of_neg hp]
      cases hl : l.filter (overridingExc sid) with
      | nil =>
        have : sid ∈ applyException base e ↔ sid ∈ base := by
          have hnp : ¬ (e.service_id = sid ∧ (e.exception_type = 1 ∨ e.exception_type = 2)) := by
            intro hc
            exact hp (by simp [overridingExc, decide_eq_true_eq, hc.1, hc.2])
          by_cases h1 : e.exception_type = 1
          · have hne : e.service_id ≠ sid := fun hc => hnp ⟨hc, Or.inl h1⟩
            simp only [applyException, if_pos h1, Finset.mem_insert]
            constructor
            · rintro (h | h)
              · exact absurd h.symm hne
              · exact h
            · exact fun h => Or.inr h
          · by_cases h2 : e.exception_type = 2
            · have hne : e.service_id ≠ sid := fun hc => hnp ⟨hc, Or.inr h2⟩
              simp only [applyException, if_neg h1, if_pos h2, Finset.mem_erase]
              constructor
              · exact fun h => h.2
              · exact fun h => ⟨Ne.symm hne, h⟩
            · simp [applyException, h1, h2]
        rw [this]
      | cons x xs => rfl

/-- Membership in the rule-derived part of the active set. -/
theorem mem_ruleBase (rules : List CalendarRule) (t : Int) (wd : Weekday) (sid : String) :
    (sid ∈ ((rules.filter (ruleActive t wd)).map (·.service_id)).toFinset ↔
      ∃ r ∈ rules, r.service_id = sid ∧
        r.start_date ≤ t ∧ t ≤ r.end_date ∧ weekdayFlag r wd = 1) := by
  simp only [List.mem_toFinset, List.mem_map, List.mem_filter, ruleActive,
    decide_eq_true_eq]
  constructor
  · rintro ⟨r, ⟨hr, h1, h2, h3⟩, hsid⟩
    exact ⟨r, hr, hsid, h1, h2, h3⟩
  · rintro ⟨r, hr, hsid, h1, h2, h3⟩
    exact ⟨r, ⟨hr, h1, h2, h3⟩, hsid⟩

/-- C4: a service id is active exactly when the last same-date exception
row of type added/removed for it says `added`; with no such exception row,
exactly when some calendar rule covers today — `[start, end]` contains the
date and the flag for today's weekday is set.  Exceptions are applied
after the rules and override them. -/
theorem active_service_ids_spec (rules : List CalendarRule)
    (excs : List CalendarException) (t : Int) (wd : Weekday) (sid : String) :
    (sid ∈ active_service_ids_for_today (some rules) (some excs) t wd ↔
      match ((excs.filter (fun e => e.date = t)).filter (overridingExc sid)).getLast? with
      | some e => e.exception_type = 1
      | none => ∃ r ∈ rules, r.service_id = sid ∧
          r.start_date ≤ t ∧ t ≤ r.end_date ∧ weekdayFlag r wd = 1) := by
  rw [active_service_ids_for_today]
  rw [mem_foldl_applyException sid (excs.filter (fun e => e.date = t))]
  cases hg : ((excs.filter (fun e => e.date = t)).filter (overridingExc sid)).getLast? with
  | none => exact mem_ruleBase rules t wd sid
  | some e => exact Iff.rfl

/-- Witness for C4 at a concrete input: a rule-covered service removed by
a same-date exception, and a rule-free service added by one. -/
theorem active_service_ids_spec_witness :
    ("A" ∉ active_service_ids_for_today
        (some [⟨"A", 1, 1, 1, 1, 1, 1, 1, 1, 99999999⟩])
        (some [⟨"A", 20260101, 2⟩]) 20260101 .monday) ∧
    ("B" ∈ active_service_ids_for_today
        (some [⟨"A", 1, 1, 1, 1, 1, 1, 1, 1, 99999999⟩])
        (some [⟨"B", 20260101, 1⟩]) 20260101 .monday) := by
  constructor
  · intro hmem
    have h := (active_service_ids_spec [⟨"A", 1, 1, 1, 1, 1, 1, 1, 1, 99999999⟩]
      [⟨"A", 20260101, 2⟩] 20260101 .monday "A").mp hmem
    exact absurd h (show ¬ ((2 : Int) = 1) by decide)
  · exact (active_service_ids_spec [⟨"A", 1, 1, 1, 1, 1, 1, 1, 1, 99999999⟩]
      [⟨"B", 20260101, 1⟩] 20260101 .monday "B").mpr (show (1 : Int) = 1 from rfl)

/-!
## C2: sort, dedup, limit and minutes formatting
-/

/-- The dedup/limit loop only ever keeps rows of its input, in order. -/
theorem dedupLimitAux_sublist (limit : Nat) (l : List LabeledRow) :
    ∀ (seen : List Nat) (count : Nat), List.Sublist (dedupLimitAux limit l seen count) l := by
  induction l with
  | nil =>
    intro seen count
    simp [dedupLimitAux]
  | cons a rest ih =>
    intro seen count
    simp only [dedupLimitAux]
    split_ifs with h1 h2
    · exact (ih seen count).cons a
    · exact (List.nil_sublist rest).cons₂ a
    · exact (ih (a.dep_sec :: seen) (count + 1)).cons₂ a

/-- Every row the dedup/limit loop emits has a `dep_sec` outside `seen`,
and is the first row of the remaining input with its `dep_sec` value
except for values already in `seen`. -/
theorem dedupLimitAux_first (limit : Nat) (l : List LabeledRow) :
    ∀ (seen : List Nat) (count : Nat) (r : LabeledRow),
      r ∈ dedupLimitAux limit l seen count →
      r.dep_sec ∉ seen ∧ ∃ pre suf, l = pre ++ r :: suf ∧
        ∀ x ∈ pre, x.dep_sec = r.dep_sec → x.dep_sec ∈ seen := by
  induction l with
  | nil =>
    intro seen count r h
    simp [dedupLimitAux] at h
  | cons a rest ih =>
    intro seen count r h
    simp only [dedupLimitAux] at h
    split_ifs at h with h1 h2
    · obtain ⟨hns, pre, suf, heq, hpre⟩ := ih seen count r h
      refine ⟨hns, a :: pre, suf, by rw [List.cons_append, heq], ?_⟩
      intro x hx _
      rcases List.mem_cons.mp hx with rfl | hxpre
      · exact h1
      · exact hpre x hxpre (by assumption)
    · have hra : r = a := by simpa using h
      subst hra
      exact ⟨h1, [], rest, rfl, by simp⟩
    · rcases List.mem_cons.mp h with rfl | hmem
      · exact ⟨h1, [], rest, rfl, by simp⟩
      · obtain ⟨hns, pre, suf, heq, hpre⟩ := ih (a.dep_sec :: seen) (count + 1) r hmem
        have hrs : r.dep_sec ∉ seen := fun hc => hns (List.mem_cons_of_mem _ hc)
        have hra : r.dep_sec ≠ a.dep_sec := fun hc =>
          hns (List.mem_cons.mpr (Or.inl hc))
        refine ⟨hrs, a :: pre, suf, by rw [List.cons_append, heq], ?_⟩
        intro x hx hxd
        rcases List.mem_cons.mp hx with rfl | hxpre
        · exact absurd hxd.symm hra
        · rcases List.mem_cons.mp (hpre x hxpre hxd) with h' | h'
          · exact absurd (hxd ▸ h') hra
          · exact h'

/-- The rows the dedup/limit loop emits have pairwise distinct `dep_sec`. -/
theorem dedupLimitAux_pairwise (limit : Nat) (l : List LabeledRow) :
    ∀ (seen : List Nat) (count : Nat),
      (dedupLimitAux limit l seen count).Pairwise
        (fun a b => a.dep_sec ≠ b.dep_sec) := by
  induction l with
  | nil =>
    intro seen count
    simp [dedupLimitAux]
  | cons a rest ih =>
    intro seen count
    simp only [dedupLimitAux]
    split_ifs with h1 h2
    · exact ih seen count
    · simp
    · refine List.Pairwise.cons ?_ (ih (a.dep_sec :: seen) (count + 1))
      intro b hb
      have hnb := (dedupLimitAux_first limit rest (a.dep_sec :: seen) (count + 1) b hb).1
      exact fun hab => hnb (List.mem_cons.mpr (Or.inl hab.symm))

/-- The dedup/limit loop emits at most `limit - count` rows once `count`
rows have been taken (for `count < limit`). -/
theorem dedupLimitAux_length (limit : Nat) (l : List LabeledRow) :
    ∀ (seen : List Nat) (count : Nat), count < limit →
      (dedupLimitAux limit l seen count).length ≤ limit - count := by
  induction l with
  | nil =>
    intro seen count _
    simp [dedupLimitAux]
  | cons a rest ih =>
    intro seen count h
    simp only [dedupLimitAux]
    split_ifs with h1 h2
    · exact ih seen count h
    · simp only [List.length_singleton]
      omega
    · simp only [List.length_cons]
      have := ih (a.dep_sec :: seen) (count + 1) (by omega)
      omega

/-- The sorted frame is ascending in `dep_sec`. -/
theorem sortRows_sorted (rows : List LabeledRow) :
    (sortRows rows).Pairwise (fun a b => a.dep_sec ≤ b.dep_sec) := by
  have h := List.sorted_insertionSort depLe rows
  exact h.imp (fun hab => hab)

/-- C2 (amended): the arrival result is the formatted image of a row list
that is ascending in `dep_sec`, has at most one row per distinct `dep_sec`
(the first occurrence in sorted order wins), has length at most `limit`
whenever `limit ≥ 1` (the loop checks the bound only after appending, so
`limit = 0` still emits one row), and each entry is the string
`"{route_label} {minutes}"` with
`minutes = max(0, floor((dep_sec - now_sec) / 60)) ≥ 0`. -/
theorem next_arrivals_spec (c : Cache) (t : Int) (wd : Weekday) (now : Nat)
    (sid : String) (lim : Nat) (st : List StopTime) (tt : TripsTable)
    (rts : List Route) (hst : c.stop_times = some st) (htt : c.trips = some tt)
    (hrt : c.routes = some rts) :
    ∃ rows : List LabeledRow,
      next_scheduled_arrivals_for_stop c t wd now sid lim =
        rows.map (formatRow now) ∧
      rows.Pairwise (fun a b => a.dep_sec ≤ b.dep_sec) ∧
      rows.Pairwise (fun a b => a.dep_sec ≠ b.dep_sec) ∧
      (1 ≤ lim → rows.length ≤ lim) ∧
      (∀ r ∈ rows, ∃ pre suf,
        sortRows (labelRows (mergeRoutes rts (serviceFilter
          (active_service_ids_for_today c.calendar c.calendar_dates t wd)
          tt.hasServiceId (mergeTrips tt (windowRows now (candidateRows st sid)))))) =
            pre ++ r :: suf ∧
          ∀ x ∈ pre, x.dep_sec ≠ r.dep_sec) ∧
      (∀ r ∈ rows,
        formatRow now r =
          r.route ++ " " ++ toString (max 0 (((r.dep_sec : Int) - (now : Int)).fdiv 60)) ∧
        0 ≤ rowMinutes now r) := by
  refine ⟨dedupLimit lim (sortRows (labelRows (mergeRoutes rts (serviceFilter
    (active_service_ids_for_today c.calendar c.calendar_dates t wd)
    tt.hasServiceId (mergeTrips tt (windowRows now (candidateRows st sid))))))),
    ?_, ?_, ?_, ?_, ?_, ?_⟩
  · simp only [next_scheduled_arrivals_for_stop, hst, htt, hrt]
  · exact List.Pairwise.sublist (dedupLimitAux_sublist lim _ [] 0) (sortRows_sorted _)
  · exact dedupLimitAux_pairwise lim _ [] 0
  · intro hlim
    have h := dedupLimitAux_length lim (sortRows (labelRows (mergeRoutes rts (serviceFilter
      (active_service_ids_for_today c.calendar c.calendar_dates t wd)
      tt.hasServiceId (mergeTrips tt (windowRows now (candidateRows st sid))))))) [] 0
      (by omega)
    simp only [dedupLimit]
    omega
  · intro r hr
    obtain ⟨_, pre, suf, heq, hpre⟩ := dedupLimitAux_first lim _ [] 0 r hr
    refine ⟨pre, suf, heq, ?_⟩
    intro x hx hxd
    exact absurd (hpre x hx hxd) (List.not_mem_nil _)
  · intro r _
    exact ⟨rfl, le_max_left 0 _⟩

/-- A concrete one-stop schedule used by the arrival-query examples. -/
def exampleCache : Cache :=
  { stop_times := some [⟨"T1", "S", none, some ⟨10, 0, 0⟩⟩,
      ⟨"T1", "S", none, some ⟨10, 0, 0⟩⟩, ⟨"T1", "S", none, some ⟨10, 5, 0⟩⟩]
    trips := some ⟨true, [⟨"T1", "R1", "SVC"⟩]⟩
    routes := some [⟨"R1", some "Gold", none⟩] }

/-- C2 counterexample: with `limit = 0` the query still returns one entry,
so the result length exceeds the requested limit. -/
theorem next_arrivals_limit_zero_counterexample :
    next_scheduled_arrivals_for_stop exampleCache 1 .monday 35000 "S" 0 = ["Gold 16"] ∧
    ¬ (next_scheduled_arrivals_for_stop exampleCache 1 .monday 35000 "S" 0).length ≤ 0 := by
  constructor
  · decide
  · decide

/-- Witness for C2 at a concrete input: the example schedule with
`limit = 3` (a duplicate departure collapses, the result is sorted, its
length is within the limit). -/
theorem next_arrivals_spec_witness :
    exampleCache.stop_times = some [⟨"T1", "S", none, some ⟨10, 0, 0⟩⟩,
      ⟨"T1", "S", none, some ⟨10, 0, 0⟩⟩, ⟨"T1", "S", none, some ⟨10, 5, 0⟩⟩] ∧
    exampleCache.trips = some ⟨true, [⟨"T1", "R1", "SVC"⟩]⟩ ∧
    exampleCache.routes = some [⟨"R1", some "Gold", none⟩] ∧
    (∃ rows : List LabeledRow,
      next_scheduled_arrivals_for_stop exampleCache 1 .monday 35000 "S" 3 =
        rows.map (formatRow 35000) ∧
      rows.Pairwise (fun a b => a.dep_sec ≤ b.dep_sec) ∧
      rows.Pairwise (fun a b => a.dep_sec ≠ b.dep_sec) ∧
      (1 ≤ 3 → rows.length ≤ 3) ∧
      (∀ r ∈ rows, ∃ pre suf,
        sortRows (labelRows (mergeRoutes [⟨"R1", some "Gold", none⟩] (serviceFilter
          (active_service_ids_for_today exampleCache.calendar
            exampleCache.calendar_dates 1 .monday)
          (⟨true, [⟨"T1", "R1", "SVC"⟩]⟩ : TripsTable).hasServiceId
          (mergeTrips ⟨true, [⟨"T1", "R1", "SVC"⟩]⟩ (windowRows 35000
            (candidateRows [⟨"T1", "S", none, some ⟨10, 0, 0⟩⟩,
              ⟨"T1", "S", none, some ⟨10, 0, 0⟩⟩,
              ⟨"T1", "S", none, some ⟨10, 5, 0⟩⟩] "S")))))) =
            pre ++ r :: suf ∧
          ∀ x ∈ pre, x.dep_sec ≠ r.dep_sec) ∧
      (∀ r ∈ rows,
        formatRow 35000 r =
          r.route ++ " " ++
            toString (max 0 (((r.dep_sec : Int) - ((35000 : Nat) : Int)).fdiv 60)) ∧
        0 ≤ rowMinutes 35000 r)) :=
  ⟨rfl, rfl, rfl,
    next_arrivals_spec exampleCache 1 .monday 35000 "S" 3 _ _ _ rfl rfl rfl⟩

/-!
## C1: shape of the display response
-/

/-- A content line of the display response: either the sentinel `"--"` or
a route label followed by a space and a non-negative integer of minutes. -/
def lineOk (s : String) : Prop :=
  s = "--" ∨ ∃ lbl : String, ∃ m : Int, 0 ≤ m ∧ s = lbl ++ " " ++ toString m

/-- Every entry of the arrival result is a formatted row. -/
theorem mem_next_scheduled_format (c : Cache) (t : Int) (wd : Weekday) (now : Nat)
    (sid : String) (lim : Nat) :
    ∀ s ∈ next_scheduled_arrivals_for_stop c t wd now sid lim,
      ∃ r : LabeledRow, s = formatRow now r := by
  intro s hs
  cases hst : c.stop_times with
  | none =>
    simp only [next_scheduled_arrivals_for_stop, hst] at hs
    simp at hs
  | some st =>
    cases htt : c.trips with
    | none =>
      simp only [next_scheduled_arrivals_for_stop, hst, htt] at hs
      simp at hs
    | some tt =>
      cases hrt : c.routes with
      | none =>
        simp only [next_scheduled_arrivals_for_stop, hst, htt, hrt] at hs
        simp at hs
      | some rts =>
        simp only [next_scheduled_arrivals_for_stop, hst, htt, hrt] at hs
        obtain ⟨r, _, hr⟩ := List.mem_map.mp hs
        exact ⟨r, hr.symm⟩

/-- The arrival result never exceeds a positive requested limit. -/
theorem next_scheduled_length_le (c : Cache) (t : Int) (wd : Weekday) (now : Nat)
    (sid : String) (lim : Nat) (hlim : 1 ≤ lim) :
    (next_scheduled_arrivals_for_stop c t wd now sid lim).length ≤ lim := by
  cases hst : c.stop_times with
  | none => simp [next_scheduled_arrivals_for_stop, hst]
  | some st =>
    cases htt : c.trips with
    | none => simp [next_scheduled_arrivals_for_stop, hst, htt]
    | some tt =>
      cases hrt : c.routes with
      | none => simp [next_scheduled_arrivals_for_stop, hst, htt, hrt]
      | some rts =>
        simp only [next_scheduled_arrivals_for_stop, hst, htt, hrt, List.length_map]
        have h := dedupLimitAux_length lim (sortRows (labelRows (mergeRoutes rts
          (serviceFilter (active_service_ids_for_today c.calendar c.calendar_dates t wd)
            tt.hasServiceId (mergeTrips tt (windowRows now (candidateRows st sid)))))))
          [] 0 (by omega)
        simp only [dedupLimit]
        omega

/-- C1 counterexample: the response's `lines` field has four strings, not
three — the title is followed by three arrival slots. -/
theorem display_lines_counterexample :
    (display { } 1 .monday 0 "S" "39th St WB" none).lines =
      ["39th St WB", "--", "--", "--"] ∧
    (display { } 1 .monday 0 "S" "39th St WB" none).lines.length ≠ 3 :=
  ⟨by decide, by decide⟩

/-- C1 (amended): `lines` is an array of exactly FOUR strings: `lines[0]`
is the title and `lines[1]`, `lines[2]`, `lines[3]` are each either `"--"`
or `"<route_label> <integer_minutes>"` with non-negative minutes; when
fewer than 3 arrivals are available the missing positions are padded with
the sentinel `"--"`. -/
theorem display_shape (c : Cache) (t : Int) (wd : Weekday) (now : Nat)
    (sid title : String) (route : Option String) :
    (display c t wd now sid title route).title = title ∧
    (display c t wd now sid title route).ticker = get_alert_text c route 160 ∧
    ∃ l1 l2 l3,
      (display c t wd now sid title route).lines = [title, l1, l2, l3] ∧
      lineOk l1 ∧ lineOk l2 ∧ lineOk l3 ∧
      (display c t wd now sid title route).lines =
        title :: (next_scheduled_arrivals_for_stop c t wd now sid 3 ++
          List.replicate
            (3 - (next_scheduled_arrivals_for_stop c t wd now sid 3).length) "--") := by
  have hlen : (next_scheduled_arrivals_for_stop c t wd now sid 3).length ≤ 3 :=
    next_scheduled_length_le c t wd now sid 3 (by omega)
  have hplen : (padArrivals (next_scheduled_arrivals_for_stop c t wd now sid 3)).length
      = 3 := by
    simp only [padArrivals, List.length_append, List.length_replicate]
    omega
  obtain ⟨a, b, d, hp⟩ := List.length_eq_three.mp hplen
  have hmem : ∀ x ∈ padArrivals (next_scheduled_arrivals_for_stop c t wd now sid 3),
      lineOk x := by
    intro x hx
    rcases List.mem_append.mp hx with hx | hx
    · obtain ⟨r, hr⟩ := mem_next_scheduled_format c t wd now sid 3 x hx
      exact Or.inr ⟨r.route, rowMinutes now r, le_max_left 0 _, hr⟩
    · exact Or.inl (List.eq_of_mem_replicate hx)
  refine ⟨rfl, rfl, a, b, d, ?_, ?_, ?_, ?_, ?_⟩
  · show [title, (padArrivals _).getD 0 "--", (padArrivals _).getD 1 "--",
      (padArrivals _).getD 2 "--"] = [title, a, b, d]
    rw [hp]
    rfl
  · exact hmem a (hp ▸ List.mem_cons_self a [b, d])
  · exact hmem b (hp ▸ List.mem_cons_of_mem a (List.mem_cons_self b [d]))
  · exact hmem d (hp ▸ List.mem_cons_of_mem a
      (List.mem_cons_of_mem b (List.mem_cons_self d [])))
  · show [title, (padArrivals _).getD 0 "--", (padArrivals _).getD 1 "--",
      (padArrivals _).getD 2 "--"] = title :: padArrivals _
    rw [hp]
    rfl

/-!
## C6: refresh failure behaviour
-/

/-- A cache holding a previously loaded snapshot whose TTL has expired by
time 100000. -/
def staleCache : Cache :=
  { stops := some [⟨"OLD", "Old stop"⟩], stop_times := some [] }

/-- A fetched bundle whose `stops.txt` parses but whose `stop_times.txt`
is malformed. -/
def badZip : ZipContent :=
  ⟨.table [⟨"NEW", "New stop"⟩], .malformed, .missing, .missing, .missing, .missing⟩

/-- C6 counterexample: a static refresh that fails while parsing
`stop_times.txt` propagates the failure but has already replaced the
`stops` table — the previous snapshot is NOT left entirely in place. -/
theorem gtfs_refresh_counterexample :
    (ensure_gtfs_loaded 100000 (.ok badZip) staleCache).2 = some () ∧
    (ensure_gtfs_loaded 100000 (.ok badZip) staleCache).1 ≠ staleCache ∧
    (ensure_gtfs_loaded 100000 (.ok badZip) staleCache).1.stops =
      some [⟨"NEW", "New stop"⟩] ∧
    (ensure_gtfs_loaded 100000 (.ok badZip) staleCache).1.stop_times =
      staleCache.stop_times :=
  ⟨by decide, by decide, by decide, by decide⟩

/-- C6 (amended): a fetch (or archive-open) failure of the static refresh
leaves the cache unchanged, and no static failure ever stamps
`gtfs_loaded_at` (though a mid-load CSV parse failure can leave
earlier-assigned tables replaced); the realtime refresh is atomic — any
failure leaves the cache entirely unchanged, and on success either the
TTL-fresh cache is kept or both snapshots and the timestamp are replaced
together as one unit. -/
theorem refresh_failure_spec (now : Nat) (c : Cache) (fetched : Except Unit ZipContent)
    (ft fa : Except Unit Bytes) (parse : Bytes → Except Unit Feed) :
    ((ensure_gtfs_loaded now (.error ()) c).1 = c) ∧
    ((ensure_gtfs_loaded now fetched c).2 ≠ none →
      (ensure_gtfs_loaded now fetched c).1.gtfs_loaded_at = c.gtfs_loaded_at) ∧
    ((ensure_rt_loaded now ft fa parse c).2 ≠ none →
      (ensure_rt_loaded now ft fa parse c).1 = c) ∧
    ((ensure_rt_loaded now ft fa parse c).2 = none →
      (ensure_rt_loaded now ft fa parse c).1 = c ∨
      ∃ tb ab tu al, ft = .ok tb ∧ fa = .ok ab ∧
        parse tb = .ok tu ∧ parse ab = .ok al ∧
        (ensure_rt_loaded now ft fa parse c).1 =
          { c with trip_updates := some tu, alerts := some al, rt_loaded_at := now }) := by
  refine ⟨?_, ?_, ?_, ?_⟩
  · rw [ensure_gtfs_loaded.eq_def]
    split_ifs with h
    · rfl
    · rfl
  · intro hne
    rw [ensure_gtfs_loaded.eq_def] at hne ⊢
    split_ifs at hne ⊢ with hfresh
    · exact absurd rfl hne
    · cases fetched with
      | error e => rfl
      | ok z =>
        rcases z with ⟨zs, zst, ztr, zro, zca, zcd⟩
        cases zs <;> cases zst <;> cases ztr <;> cases zro <;> cases zca <;> cases zcd <;>
          first
            | rfl
            | exact absurd rfl hne
  · intro hne
    rw [ensure_rt_loaded.eq_def] at hne ⊢
    split_ifs at hne ⊢ with hfresh
    · exact absurd rfl hne
    · cases ft with
      | error e => rfl
      | ok tb =>
        cases fa with
        | error e => rfl
        | ok ab =>
          dsimp only at hne ⊢
          cases hpt : parse tb with
          | error e => rfl
          | ok tu =>
            rw [hpt] at hne
            dsimp only at hne ⊢
            cases hpa : parse ab with
            | error e => rfl
            | ok al =>
              rw [hpa] at hne
              exact absurd rfl hne
  · intro hok
    rw [ensure_rt_loaded.eq_def] at hok ⊢
    split_ifs at hok ⊢ with hfresh
    · exact Or.inl rfl
    · cases ft with
      | error e => exact absurd hok (by simp)
      | ok tb =>
        cases fa with
        | error e => exact absurd hok (by simp)
        | ok ab =>
          dsimp only at hok ⊢
          cases hpt : parse tb with
          | error e =>
            rw [hpt] at hok
            exact absurd hok (by simp)
          | ok tu =>
            rw [hpt] at hok
            dsimp only at hok ⊢
            cases hpa : parse ab with
            | error e =>
              rw [hpa] at hok
              exact absurd hok (by simp)
            | ok al =>
              exact Or.inr ⟨tb, ab, tu, al, rfl, rfl, hpt, hpa, rfl⟩

/-- Witness for C6 at a concrete input: a realtime refresh whose alerts
fetch fails leaves the cache unchanged, and a successful one replaces both
snapshots together. -/
theorem refresh_failure_spec_witness :
    ((ensure_rt_loaded 100 (.ok []) (.error ()) (fun _ => .ok ⟨[]⟩) staleCache).2 ≠ none →
      (ensure_rt_loaded 100 (.ok []) (.error ()) (fun _ => .ok ⟨[]⟩) staleCache).1 =
        staleCache) ∧
    (ensure_rt_loaded 100 (.ok []) (.error ()) (fun _ => .ok ⟨[]⟩) staleCache).1 =
      staleCache :=
  have h := refresh_failure_spec 100 staleCache (.error ())
    (.ok []) (.error ()) (fun _ => .ok ⟨[]⟩)
  ⟨h.2.2.1, h.2.2.1 (by decide)⟩

/-!
## C8: alert text extraction
-/

/-- Text extraction as the claim words it (for comparison with the
source's `extract_alert_text`): the first NON-empty translation of the
header text when the header is present, else the first non-empty
translation of the description text. -/
def extract_alert_text_claim (a : Alert) : String :=
  if a.header_text ≠ [] then
    ((a.header_text.filter (fun s => s ≠ "")).head?).getD ""
  else
    ((a.description_text.filter (fun s => s ≠ "")).head?).getD ""

/-- C8 counterexample: an alert whose header translations are
`["", "Delay"]`.  The claim's first non-empty translation is `"Delay"`,
but the code strips translation `[0]`, gets `""`, and drops the alert —
`get_alert_text` falls back to `"No alerts"`. -/
theorem alert_extract_counterexample :
    extract_alert_text ⟨[], ["", "Delay"], []⟩ = "" ∧
    extract_alert_text_claim ⟨[], ["", "Delay"], []⟩ = "Delay" ∧
    get_alert_text { alerts := some ⟨[⟨some ⟨[], ["", "Delay"], []⟩⟩]⟩ } none 160 =
      "No alerts" :=
  ⟨by decide, by decide, by decide⟩

/-- C8 (amended): for every kept alert the displayed text is the stripped
FIRST translation of the header when the header has any translation, else
the stripped first translation of the description; alerts whose selected
translation strips to empty yield no text and are skipped from the joined
output. -/
theorem alert_extract_spec (feed : Feed) (allowed : Option (Finset String)) :
    (alert_msgs feed allowed =
      ((feed.entity.filterMap (fun ent => ent.alert)).filter
        (fun a => alert_applies_to_routes a allowed)).filterMap
        (fun a => if extract_alert_text a = "" then none
          else some (extract_alert_text a))) ∧
    (∀ a : Alert, ∀ s rest, a.header_text = s :: rest →
      extract_alert_text a = pyStrip s) ∧
    (∀ a : Alert, ∀ s rest, a.header_text = [] → a.description_text = s :: rest →
      extract_alert_text a = pyStrip s) ∧
    (∀ a : Alert, a.header_text = [] → a.description_text = [] →
      extract_alert_text a = "") ∧
    (∀ m ∈ alert_msgs feed allowed, m ≠ "") := by
  have hmain : ∀ l : List FeedEntity,
      (l.filterMap (fun ent => match ent.alert with
        | none => none
        | some a =>
          if alert_applies_to_routes a allowed then
            (if extract_alert_text a = "" then none else some (extract_alert_text a))
          else none)) =
      ((l.filterMap (fun ent => ent.alert)).filter
        (fun a => alert_applies_to_routes a allowed)).filterMap
        (fun a => if extract_alert_text a = "" then none
          else some (extract_alert_text a)) := by
    intro l
    induction l with
    | nil => rfl
    | cons e l ih =>
      cases he : e.alert with
      | none => simp [List.filterMap_cons, he, ih]
      | some a =>
        by_cases happ : alert_applies_to_routes a allowed
        · simp [List.filterMap_cons, he, happ, List.filter_cons, ih]
        · simp [List.filterMap_cons, he, happ, List.filter_cons, ih]
  refine ⟨hmain feed.entity, ?_, ?_, ?_, ?_⟩
  · intro a s rest h
    rcases a with ⟨ie, ht, dt⟩
    dsimp only at h
    subst h
    rfl
  · intro a s rest h1 h2
    rcases a with ⟨ie, ht, dt⟩
    dsimp only at h1 h2
    subst h1
    subst h2
    rfl
  · intro a h1 h2
    rcases a with ⟨ie, ht, dt⟩
    dsimp only at h1 h2
    subst h1
    subst h2
    rfl
  · intro m hm
    obtain ⟨ent, _, hfn⟩ := List.mem_filterMap.mp hm
    cases hent : ent.alert with
    | none =>
      rw [hent] at hfn
      cases hfn
    | some a =>
      rw [hent] at hfn
      dsimp only at hfn
      by_cases happ : alert_applies_to_routes a allowed
      · rw [if_pos happ] at hfn
        by_cases hx : extract_alert_text a = ""
        · rw [if_pos hx] at hfn
          cases hfn
        · rw [if_neg hx] at hfn
          injection hfn with h2
          rw [← h2]
          exact hx
      · rw [if_neg happ] at hfn
        cases hfn

/-- Witness for C8 at a concrete input: a single-translation header is
displayed stripped. -/
theorem alert_extract_spec_witness :
    extract_alert_text ⟨[], ["  Gold line delayed  "], []⟩ =
      pyStrip "  Gold line delayed  " ∧
    pyStrip "  Gold line delayed  " = "Gold line delayed" :=
  ⟨(alert_extract_spec ⟨[]⟩ none).2.1 ⟨[], ["  Gold line delayed  "], []⟩
      "  Gold line delayed  " [] rfl,
    by decide⟩

/-!
## C7: route filter resolution
-/

/-- No alert passes an empty resolved route set. -/
theorem alert_applies_empty (a : Alert) :
    alert_applies_to_routes a (some ∅) = false := by
  simp only [alert_applies_to_routes, List.any_eq_false]
  intro e _
  simp

/-- With an empty resolved route set no alert survives. -/
theorem alert_msgs_empty_allowed (feed : Feed) :
    alert_msgs feed (some ∅) = [] := by
  rw [alert_msgs, List.filterMap_eq_nil_iff]
  intro ent _
  cases hent : ent.alert with
  | none => rfl
  | some a =>
    dsimp only
    rw [if_neg]
    rw [alert_applies_empty a]
    exact Bool.false_ne_true

/-- C7: the route filter first matches the trimmed, case-insensitive
filter against route short names; if nothing matches by short name it
falls back to a (lowercased) match on the route identifier; if still
nothing matches the resolved set is empty — distinct from supplying no
filter — so no alert can match it and `get_alert_text` with such a filter
returns `"No alerts"`. -/
theorem route_filter_spec (rts : List Route) (s0 : String)
    (hne : rts ≠ []) (hs0 : s0 ≠ "") (hsn : pyLower (pyStrip s0) ≠ "") :
    (rts.filter (snMatches (pyLower (pyStrip s0))) ≠ [] →
      route_ids_for_short_name (some rts) (some s0) =
        some ((rts.filter (snMatches (pyLower (pyStrip s0)))).map (·.route_id)).toFinset ∧
      ∀ rid, rid ∈ ((rts.filter (snMatches (pyLower (pyStrip s0)))).map
          (·.route_id)).toFinset ↔
        ∃ r ∈ rts, snMatches (pyLower (pyStrip s0)) r = true ∧ r.route_id = rid) ∧
    (rts.filter (snMatches (pyLower (pyStrip s0))) = [] →
      route_ids_for_short_name (some rts) (some s0) =
        some ((rts.filter (ridMatches (pyLower (pyStrip s0)))).map (·.route_id)).toFinset ∧
      ∀ rid, rid ∈ ((rts.filter (ridMatches (pyLower (pyStrip s0)))).map
          (·.route_id)).toFinset ↔
        ∃ r ∈ rts, ridMatches (pyLower (pyStrip s0)) r = true ∧ r.route_id = rid) ∧
    (rts.filter (snMatches (pyLower (pyStrip s0))) = [] →
      rts.filter (ridMatches (pyLower (pyStrip s0))) = [] →
      route_ids_for_short_name (some rts) (some s0) = some ∅ ∧
      ∀ (c : Cache) (feed : Feed) (ml : Nat), c.routes = some rts →
        c.alerts = some feed → get_alert_text c (some s0) ml = "No alerts") := by
  have hmem : ∀ (p : Route → Bool) (rid : String),
      rid ∈ ((rts.filter p).map (·.route_id)).toFinset ↔
        ∃ r ∈ rts, p r = true ∧ r.route_id = rid := by
    intro p rid
    simp only [List.mem_toFinset, List.mem_map, List.mem_filter]
    constructor
    · rintro ⟨r, ⟨hr, hp⟩, hid⟩
      exact ⟨r, hr, hp, hid⟩
    · rintro ⟨r, hr, hp, hid⟩
      exact ⟨r, ⟨hr, hp⟩, hid⟩
  refine ⟨?_, ?_, ?_⟩
  · intro hf
    refine ⟨?_, fun rid => hmem _ rid⟩
    simp only [route_ids_for_short_name]
    rw [if_neg hs0, if_neg (by rw [List.isEmpty_iff]; exact hne), if_neg hsn,
      if_neg (by rw [List.isEmpty_iff]; exact hf)]
  · intro hf
    refine ⟨?_, fun rid => hmem _ rid⟩
    simp only [route_ids_for_short_name]
    rw [if_neg hs0, if_neg (by rw [List.isEmpty_iff]; exact hne), if_neg hsn,
      if_pos (by rw [List.isEmpty_iff]; exact hf)]
  · intro hf1 hf2
    have hres : route_ids_for_short_name (some rts) (some s0) = some ∅ := by
      simp only [route_ids_for_short_name]
      rw [if_neg hs0, if_neg (by rw [List.isEmpty_iff]; exact hne), if_neg hsn,
        if_pos (by rw [List.isEmpty_iff]; exact hf1), hf2]
      rfl
    refine ⟨hres, ?_⟩
    intro c feed ml hroutes halerts
    rw [get_alert_text, halerts]
    dsimp only
    rw [hroutes, hres, alert_msgs_empty_allowed feed]
    rfl

/-- Witness for C7 at a concrete input: a filter matching nothing resolves
to the empty set and yields `"No alerts"` even though an alert is loaded. -/
theorem route_filter_spec_witness :
    ([⟨"10", some "Gold", none⟩] : List Route) ≠ [] ∧
    route_ids_for_short_name (some [⟨"10", some "Gold", none⟩]) (some "NoSuchRoute") =
      some ∅ ∧
    get_alert_text
      { routes := some [⟨"10", some "Gold", none⟩]
        alerts := some ⟨[⟨some ⟨["10"], ["Delay"], []⟩⟩]⟩ }
      (some "NoSuchRoute") 160 = "No alerts" := by
  have h := (route_filter_spec [⟨"10", some "Gold", none⟩] "NoSuchRoute"
    (by decide) (by decide) (by decide)).2.2 (by decide) (by decide)
  exact ⟨by decide, h.1,
    h.2 { routes := some [⟨"10", some "Gold", none⟩]
          alerts := some ⟨[⟨some ⟨["10"], ["Delay"], []⟩⟩]⟩ }
      ⟨[⟨some ⟨["10"], ["Delay"], []⟩⟩]⟩ 160 rfl rfl⟩

end SacTransit
